import Mathlib

/-!
Verification of the Match Session Engine and Move Evaluator of PyChessGUI
(`src/final.py`) against its natural-language specification.

The repository's own code is embedded shallowly.  The chess-rules library
(python-chess) and the engine subprocess (Stockfish) are external
collaborators of the repository, so they appear here as abstract interfaces
(`Rules`, `Engine`) over opaque board/move/piece types; every function of the
repository itself (`get_move_evaluation`, `evaluate_moves`, `update_timer`,
the click handler, the AI-move handler, resign/continue, the review-screen
navigation) is translated line by line from `src/final.py`.

Conventions from python-chess carried into the model:
* a chess colour is a `Bool`, `true` = White (`chess.WHITE = True`);
* a square is a `Nat` in `0..63` (`chess.square` returns an int, square a1
  is `0` — note that Python treats the int `0` as falsy);
* `analyse` returns the score from the side-to-move's perspective
  (`info["score"].relative`), already mate-saturated by `mate_score`.
-/

namespace PyChess

/-- Interface of the external Rules Provider (python-chess `Board`/`Move`),
over opaque board type `B`, move type `M` and piece type `P`. -/
structure Rules (B M P : Type) where
  mkMove : Nat → Nat → M
  pieceAt : B → Nat → Option P
  pieceColor : P → Bool
  legalMoves : B → List M
  moveFrom : M → Nat
  moveTo : M → Nat
  push : B → M → B
  turn : B → Bool
  isCheck : B → Bool
  initBoard : B
  san : B → M → String

/-- Result of one `engine.analyse` call: the relative centipawn score and the
principal variation (possibly empty when the engine reports no line; a
missing `"pv"` key and an empty list both raise in the Python code and are
modelled by `pv = []`). -/
structure EngineInfo (M : Type) where
  score : Int
  pv : List M

/-- Interface of the external Engine Process (Stockfish over UCI).
`analyse board depth mateScore` models
`engine.analyse(board, chess.engine.Limit(depth=depth))` with the relative
score extracted via `.score(mate_score=mateScore)`;
`play board depth` models `engine.play(board, chess.engine.Limit(depth=depth)).move`. -/
structure Engine (B M : Type) where
  analyse : B → Nat → Int → EngineInfo M
  play : B → Nat → Option M

/-- DIFFICULTY_LEVELS from `src/final.py` lines 108-113 (the `depth` field). -/
def DIFFICULTY_LEVELS : String → Option Nat
  | "Easy" => some 5
  | "Medium" => some 10
  | "Hard" => some 15
  | "Extreme" => some 20
  | _ => none

/-- Search depth used by `GameState.__init__`:
`DIFFICULTY_LEVELS.get(self.difficulty, {"depth": 10})["depth"]`, overridden
to the Extreme depth in "AI vs AI" mode (lines 242-244). -/
def ai_skill_of (game_mode difficulty : String) : Nat :=
  if game_mode = "AI vs AI" then 20 else (DIFFICULTY_LEVELS difficulty).getD 10

/-- Analysis depth used by both `engine.analyse` calls of
`get_move_evaluation` (`chess.engine.Limit(depth=15)`, lines 862 and 877). -/
def EVAL_DEPTH : Nat := 15

/-- Saturating constant for mate scores in `get_move_evaluation`
(`.score(mate_score=10000)`, lines 863 and 878). -/
def MATE_SCORE : Int := 10000

variable {B M P : Type}

/-- Translation of `get_move_evaluation(board, move)` (`src/final.py`
lines 861-886).  The classification strings are the source's colour tags:
"green" = Best, "blue" = Acceptable, "red" = Inaccurate.  The `for ... else`
legality scan is membership in `board.legal_moves`; the `try`/`except`
around `info["pv"][0]` is the `pv = []` case; `board.push`/`board.pop` on
the look-ahead is the functional `push` leaving `board` untouched. -/
def get_move_evaluation (eng : Engine B M) (r : Rules B M P) [DecidableEq M]
    (board : B) (move : M) : String :=
  let info := eng.analyse board EVAL_DEPTH MATE_SCORE
  let score := info.score
  if r.isCheck board then "red"
  else if (r.legalMoves board).contains move then
    match info.pv with
    | [] => "blue"
    | best_move :: _ =>
      if move = best_move then "green"
      else
        let new_info := eng.analyse (r.push board move) EVAL_DEPTH MATE_SCORE
        let new_score := new_info.score
        let score_diff := score - new_score
        if score_diff.natAbs ≤ 100 then "blue" else "red"
  else "red"

/-- Number of look-ahead (post-move) `engine.analyse` calls performed by
`get_move_evaluation` on the path actually executed: `1` exactly when the
non-best branch (lines 876-884) runs, `0` on every other path. -/
def move_evaluation_lookaheads (eng : Engine B M) (r : Rules B M P) [DecidableEq M]
    (board : B) (move : M) : Nat :=
  let info := eng.analyse board EVAL_DEPTH MATE_SCORE
  if r.isCheck board then 0
  else if (r.legalMoves board).contains move then
    match info.pv with
    | [] => 0
    | best_move :: _ => if move = best_move then 0 else 1
  else 0

/-- Modelled from the spec: variant of the non-best branch in which the
look-ahead score is first brought back to the original mover's perspective —
"obtain score `s_{i+1}` from the *same original perspective* (negate if the
analyzer reports from the new side-to-move's perspective)".  The analyzer
(`info["score"].relative`) does report from the new side-to-move's
perspective, so this model negates `new_score`; it differs from
`get_move_evaluation` only in that negation. -/
def move_evaluation_specDelta (eng : Engine B M) (r : Rules B M P) [DecidableEq M]
    (board : B) (move : M) : String :=
  let info := eng.analyse board EVAL_DEPTH MATE_SCORE
  let score := info.score
  if r.isCheck board then "red"
  else if (r.legalMoves board).contains move then
    match info.pv with
    | [] => "blue"
    | best_move :: _ =>
      if move = best_move then "green"
      else
        let new_info := eng.analyse (r.push board move) EVAL_DEPTH MATE_SCORE
        let new_score := - new_info.score
        let score_diff := score - new_score
        if score_diff.natAbs ≤ 100 then "blue" else "red"
  else "red"

/-- Loop body of `EvaluationScreen.evaluate_moves` (lines 937-945): for each
move, classify it on the replay board, record `(san, colour)`, then push the
move onto the replay board. -/
def evaluate_moves_go (eng : Engine B M) (r : Rules B M P) [DecidableEq M] :
    List M → List (String × String) → B → List (String × String)
  | [], acc, _ => acc
  | move :: rest, acc, b =>
      evaluate_moves_go eng r rest
        (acc ++ [(r.san b move, get_move_evaluation eng r b move)])
        (r.push b move)

/-- Translation of `EvaluationScreen.evaluate_moves` (lines 937-945): start a
fresh `chess.Board()` and classify the whole move history in order. -/
def evaluate_moves (eng : Engine B M) (r : Rules B M P) [DecidableEq M]
    (history : List M) : List (String × String) :=
  evaluate_moves_go eng r history [] r.initBoard

/-- State of a match session: the fields of `GameState.__init__`
(lines 222-245) that the core logic reads or writes.  `remaining_time`, a
dict keyed by colour, is split into its two entries; `start_time` is the
last clock-tick timestamp in milliseconds. -/
structure GameState (B M : Type) where
  game_mode : String
  board : B
  human_color : Option Bool
  selected_square : Option Nat
  valid_moves : List Nat
  game_over : Bool
  result : Option String
  time_limit : Option Int
  start_time : Int
  remaining_white : Int
  remaining_black : Int
  is_timer_running : Bool
  hint_move : Option M
  move_history : List M
  ai_skill : Nat
  is_saved : Bool

/-- Lookup in the `remaining_time` dict: `remaining_time[colour]`. -/
def GameState.remaining (st : GameState B M) (c : Bool) : Int :=
  if c then st.remaining_white else st.remaining_black

/-- Assignment to the `remaining_time` dict: `remaining_time[colour] = v`. -/
def GameState.setRemaining (st : GameState B M) (c : Bool) (v : Int) : GameState B M :=
  if c then { st with remaining_white := v } else { st with remaining_black := v }

/-- Translation of `GameState.update_timer(turn)` (lines 303-307): when a
time limit is configured, subtract the elapsed time since `start_time` from
`remaining_time[turn]` and reset `start_time`.  `now` stands for
`pygame.time.get_ticks()`. -/
def update_timer (st : GameState B M) (turn : Bool) (now : Int) : GameState B M :=
  if st.time_limit.isSome then
    let elapsed := now - st.start_time
    let st1 := st.setRemaining turn (st.remaining turn - elapsed)
    { st1 with start_time := now }
  else st

/-- Selection branch of `GameState.handle_click` (lines 272-276): with no
current selection, look up the clicked square; a piece passing the
mode-dependent ownership test (`game_mode == "Human vs Human"` or
`piece.color == self.human_color`) becomes selected and the destinations of
the legal moves leaving that square are computed; otherwise nothing changes.
Note `piece.color == self.human_color` compares against `human_color`
(possibly `None`), not against the side to move. -/
def select_branch (r : Rules B M P) (st : GameState B M) (square : Nat) :
    GameState B M :=
  match r.pieceAt st.board square with
  | none => st
  | some piece =>
    if st.game_mode = "Human vs Human" ∨ st.human_color = some (r.pieceColor piece) then
      { st with
          selected_square := some square
          valid_moves :=
            ((r.legalMoves st.board).filter (fun m => r.moveFrom m == square)).map r.moveTo }
    else st

/-- Translation of the square-level part of `GameState.handle_click`
(lines 254-276; the pixel-to-square arithmetic of lines 248-253 belongs to
the Presentation Layer and is outside the model).  `if self.selected_square:`
is Python truthiness on an `Option Nat` whose payload is a square index,
so `some 0` (square a1) takes the unselected branch.  On a legal move the
board is pushed, the move appended to the history, the selection cleared,
the hint dropped, the timer marked running and — when a time limit is set —
`update_timer(self.board.turn)` is called with the turn of the board *after*
the push.  On an illegal move only the selection is cleared.  The
`is_capture` flag of line 256 feeds only the sound effect and carries no
state. -/
def handle_click_square (r : Rules B M P) [DecidableEq M] (st : GameState B M)
    (square : Nat) (now : Int) : GameState B M :=
  match st.selected_square with
  | some sel =>
    if sel ≠ 0 then
      let move := r.mkMove sel square
      if (r.legalMoves st.board).contains move then
        let st1 := { st with
          board := r.push st.board move
          move_history := st.move_history ++ [move]
          selected_square := (none : Option Nat)
          valid_moves := ([] : List Nat)
          hint_move := (none : Option M)
          is_timer_running := true }
        if st1.time_limit.isSome then update_timer st1 (r.turn st1.board) now else st1
      else
        { st with selected_square := none, valid_moves := [] }
    else select_branch r st square
  | none => select_branch r st square

/-- Translation of `GameState.get_ai_move` (lines 288-293): mark the timer
running, query the engine at the session's depth, and push/record the move
only when one is returned.  When `result.move` is `None` nothing else
happens — no error state is set. -/
def get_ai_move (eng : Engine B M) (r : Rules B M P) (st : GameState B M) :
    GameState B M :=
  let st1 := { st with is_timer_running := true }
  match eng.play st1.board st1.ai_skill with
  | some m => { st1 with board := r.push st1.board m, move_history := st1.move_history ++ [m] }
  | none => st1

/-- Effect of clicking the Resign button (`main`, lines 1155-1157):
`game_state.game_over = True; game_state.result = "Resignation"`. -/
def resign_click (st : GameState B M) : GameState B M :=
  { st with game_over := true, result := some "Resignation" }

/-- Effect of the evaluation screen's "continue_game" action (`main`,
lines 1178-1180): `game_state.game_over = False` — nothing else changes. -/
def continue_game (st : GameState B M) : GameState B M :=
  { st with game_over := false }

/-- Whether the evaluation screen offers the Continue (resume) button
(`EvaluationScreen.__init__`, line 922): only when
`game_state.result == "Resignation"`. -/
def evaluation_offers_continue (st : GameState B M) : Bool :=
  st.result == some "Resignation"

/-- Navigation state of `EvaluationScreen` relevant to replay: the fields
`current_move_index`, `is_playing` and `speed_index` (lines 894-899). -/
structure EvalNav where
  current_move_index : Nat
  is_playing : Bool
  speed_index : Nat
deriving DecidableEq

/-- Initial navigation state of `EvaluationScreen.__init__`:
`current_move_index = 0`, `is_playing = True`, `speed_index = 3`. -/
def evalNavInit : EvalNav := ⟨0, true, 3⟩

/-- Navigation intents of the review screen: the five
`trigger_action` keys that change navigation state, plus an autoplay tick of
`update_and_draw` whose Boolean records whether enough time elapsed
(`current_time - last_move_time > 1000 / speed`). -/
inductive NavAction where
  | go_to_start
  | play_pause
  | prev
  | next
  | speed
  | tick (elapsed : Bool)

/-- Translation of `EvaluationScreen.trigger_action` (lines 973-986) for the
navigation keys, together with the autoplay step of
`EvaluationScreen.update_and_draw` (lines 1047-1053).  `histLen` is
`len(self.move_history)`; `max(0, i - 1)` is truncated `Nat` subtraction. -/
def trigger_action (histLen : Nat) (s : EvalNav) : NavAction → EvalNav
  | .go_to_start => { s with is_playing := false, current_move_index := 0 }
  | .play_pause =>
      if s.current_move_index < histLen then { s with is_playing := !s.is_playing } else s
  | .prev => { s with is_playing := false, current_move_index := s.current_move_index - 1 }
  | .next =>
      { s with is_playing := false
               current_move_index := min histLen (s.current_move_index + 1) }
  | .speed => { s with speed_index := (s.speed_index + 1) % 8 }
  | .tick elapsed =>
      if s.is_playing && elapsed && decide (s.current_move_index < histLen) then
        { s with current_move_index := s.current_move_index + 1 }
      else s

/-- Board shown by `EvaluationScreen.draw` (lines 1003-1004): a fresh
`chess.Board()` with `self.move_history[i]` pushed for each
`i in range(self.current_move_index)`. -/
def draw_temp_board [Inhabited M] (r : Rules B M P) (history : List M) (idx : Nat) : B :=
  (List.range idx).foldl (fun b i => r.push b (history.getD i default)) r.initBoard

/-- Reference replay: a fresh initial position with exactly the first `idx`
moves of the history applied in order. -/
def replay_board (r : Rules B M P) (history : List M) (idx : Nat) : B :=
  (history.take idx).foldl r.push r.initBoard

/-! Concrete instances of the external interfaces, used to evaluate the
model at specific inputs.  A board is represented by the list of moves
pushed onto it, a move by its (from, to) squares, a piece by its colour. -/

/-- Concrete board type: the list of moves pushed so far. -/
abbrev Bd := List (Nat × Nat)

/-- Concrete move type: a (from-square, to-square) pair. -/
abbrev Mv := Nat × Nat

/-- Concrete rules: a white piece sits on squares 12 (e2) and 0 (a1), the
single legal move is e2e4 = (12, 28), White moves on even plies, and the
side to move is never in check. -/
def rulesOpen : Rules Bd Mv Bool where
  mkMove := fun a b => (a, b)
  pieceAt := fun _ sq => if sq = 12 ∨ sq = 0 then some true else none
  pieceColor := id
  legalMoves := fun _ => [(12, 28)]
  moveFrom := Prod.fst
  moveTo := Prod.snd
  push := fun b m => b ++ [m]
  turn := fun b => b.length % 2 == 0
  isCheck := fun _ => false
  initBoard := []
  san := fun _ _ => ""

/-- Concrete rules identical to `rulesOpen` except that the side to move is
reported in check. -/
def rulesInCheck : Rules Bd Mv Bool :=
  { rulesOpen with isCheck := fun _ => true }

/-- Concrete rules for a Human-vs-AI position where it is Black's turn
(`turn` = `false`) while a White piece sits on square 4; no legal moves are
listed from that square. -/
def rulesHvAI : Rules Bd Mv Bool where
  mkMove := fun a b => (a, b)
  pieceAt := fun _ sq => if sq = 4 then some true else none
  pieceColor := id
  legalMoves := fun _ => []
  moveFrom := Prod.fst
  moveTo := Prod.snd
  push := fun b m => b ++ [m]
  turn := fun _ => false
  isCheck := fun _ => false
  initBoard := []
  san := fun _ _ => ""

/-- Concrete engine whose analysis always reports score 0 with principal
move e2e4, and which returns no move when asked to play. -/
def engBest : Engine Bd Mv where
  analyse := fun _ _ _ => ⟨0, [(12, 28)]⟩
  play := fun _ _ => none

/-- Concrete engine for the perspective test: the pre-move position
(empty board) scores +60 for the side to move with principal move (11, 27);
after any move the new side to move scores −60 (the evaluation is
unchanged from the original mover's perspective). -/
def engSwing : Engine Bd Mv where
  analyse := fun b _ _ => if b.isEmpty then ⟨60, [(11, 27)]⟩ else ⟨-60, [(11, 27)]⟩
  play := fun _ _ => none

/-- Concrete engine whose analysis returns no principal line at all, and
which returns no move when asked to play. -/
def engNoPv : Engine Bd Mv where
  analyse := fun _ _ _ => ⟨0, []⟩
  play := fun _ _ => none

/-- Concrete in-progress session: Human vs Human, 60-second limit, square
e2 (12) selected, fresh board, both clocks at 60000 ms, last tick at 0 ms. -/
def st0 : GameState Bd Mv where
  game_mode := "Human vs Human"
  board := []
  human_color := some true
  selected_square := some 12
  valid_moves := [28]
  game_over := false
  result := none
  time_limit := some 60
  start_time := 0
  remaining_white := 60000
  remaining_black := 60000
  is_timer_running := false
  hint_move := none
  move_history := []
  ai_skill := 10
  is_saved := false

/-- The session `st0` with square a1 (index 0) recorded as selected. -/
def stA1 : GameState Bd Mv := { st0 with selected_square := some 0 }

/-- A Human-vs-AI session (human plays White) with no current selection. -/
def stHvAI : GameState Bd Mv :=
  { st0 with game_mode := "Human vs AI", selected_square := none, valid_moves := [] }

/-! Theorems settling the claims. -/

/-- C5 counterexample: the Move Evaluator's fixed analysis depth (15) is not
strictly greater than every gameplay difficulty tier — the Extreme tier
searches to depth 20. -/
theorem C5_counterexample :
    DIFFICULTY_LEVELS "Extreme" = some 20 ∧ ¬ (20 < EVAL_DEPTH) := by
  decide

/-- C5 (amended): the evaluator's fixed analysis depth is 15 — strictly
deeper than the Easy (5) and Medium (10) tiers, equal to the Hard tier (15),
and strictly shallower than the Extreme tier (20) — and mate distances are
mapped to the saturating constant ±10000. -/
theorem C5_depth_and_mate_constants :
    EVAL_DEPTH = 15 ∧ MATE_SCORE = 10000 ∧
    DIFFICULTY_LEVELS "Easy" = some 5 ∧ DIFFICULTY_LEVELS "Medium" = some 10 ∧
    DIFFICULTY_LEVELS "Hard" = some 15 ∧ DIFFICULTY_LEVELS "Extreme" = some 20 ∧
    5 < EVAL_DEPTH ∧ 10 < EVAL_DEPTH ∧ ¬ (15 < EVAL_DEPTH) ∧ ¬ (20 < EVAL_DEPTH) ∧
    ai_skill_of "AI vs AI" "Easy" = 20 := by
  decide

/-- C1 counterexample: in a position the Rules Provider reports as in check,
a legal played move that equals the engine's principal best move is
classified "red", not "green" — `get_move_evaluation` returns "red" for
every in-check position before ever comparing the move with the principal
line. -/
theorem C1_counterexample :
    (engBest.analyse ([] : Bd) EVAL_DEPTH MATE_SCORE).pv.head? = some (12, 28) ∧
    (rulesInCheck.legalMoves ([] : Bd)).contains (12, 28) = true ∧
    rulesInCheck.isCheck ([] : Bd) = true ∧
    get_move_evaluation engBest rulesInCheck ([] : Bd) (12, 28) ≠ "green" := by
  decide

/-- C1 (amended): when the pre-move position is not in check, a legal played
move that equals the engine's principal best move from the pre-move analysis
at the fixed depth is classified Best ("green"), and no look-ahead
(post-move) analysis call is issued for it. -/
theorem C1_best_move_green (eng : Engine B M) (r : Rules B M P) [DecidableEq M]
    (board : B) (move : M)
    (hchk : r.isCheck board = false)
    (hleg : (r.legalMoves board).contains move = true)
    (hpv : (eng.analyse board EVAL_DEPTH MATE_SCORE).pv.head? = some move) :
    get_move_evaluation eng r board move = "green" ∧
    move_evaluation_lookaheads eng r board move = 0 := by
  obtain ⟨t, hcons⟩ : ∃ t, (eng.analyse board EVAL_DEPTH MATE_SCORE).pv = move :: t := by
    cases h : (eng.analyse board EVAL_DEPTH MATE_SCORE).pv with
    | nil => rw [h] at hpv; simp at hpv
    | cons a t =>
      rw [h] at hpv
      simp only [List.head?] at hpv
      exact ⟨t, by rw [(Option.some.injEq _ _).mp hpv]⟩
  have hmem : move ∈ r.legalMoves board := by simpa using hleg
  constructor
  · simp [get_move_evaluation, hchk, hleg, hcons, hmem]
  · simp [move_evaluation_lookaheads, hchk, hleg, hcons, hmem]

/-- C1 witness: a concrete not-in-check position where the played move is
the principal move; the theorem yields classification "green" with zero
look-ahead calls. -/
theorem C1_witness :
    rulesOpen.isCheck ([] : Bd) = false ∧
    (rulesOpen.legalMoves ([] : Bd)).contains (12, 28) = true ∧
    (engBest.analyse ([] : Bd) EVAL_DEPTH MATE_SCORE).pv.head? = some (12, 28) ∧
    (get_move_evaluation engBest rulesOpen ([] : Bd) (12, 28) = "green" ∧
     move_evaluation_lookaheads engBest rulesOpen ([] : Bd) (12, 28) = 0) :=
  ⟨rfl, by decide, rfl, C1_best_move_green engBest rulesOpen [] (12, 28) rfl (by decide) rfl⟩

/-- C2: the code diffs the raw relative scores without negating the
look-ahead score back to the original mover's perspective.  At a position
scoring +60 for the mover where the played (non-principal) move keeps the
evaluation at +60 for the mover (so the analyzer reports −60 for the new
side to move), the code computes Δ = 60 − (−60) = 120 and classifies
"red" (Inaccurate), while the specified same-perspective computation gives
Δ = 60 − 60 = 0 and classifies "blue" (Acceptable). -/
theorem C2_perspective_bug :
    rulesOpen.isCheck ([] : Bd) = false ∧
    (rulesOpen.legalMoves ([] : Bd)).contains (12, 28) = true ∧
    (engSwing.analyse ([] : Bd) EVAL_DEPTH MATE_SCORE).score = 60 ∧
    (engSwing.analyse ([] : Bd) EVAL_DEPTH MATE_SCORE).pv.head? = some (11, 27) ∧
    (engSwing.analyse (rulesOpen.push ([] : Bd) (12, 28)) EVAL_DEPTH MATE_SCORE).score = -60 ∧
    get_move_evaluation engSwing rulesOpen ([] : Bd) (12, 28) = "red" ∧
    move_evaluation_specDelta engSwing rulesOpen ([] : Bd) (12, 28) = "blue" := by
  decide

/-- C3: applying White's legal first move e2e4 in a timed game with 5000 ms
elapsed since the last tick subtracts the elapsed time from *Black's*
remaining time and leaves White's remaining time unchanged —
`handle_click` calls `update_timer(self.board.turn)` after the push, so the
clock of the side to move *next* is charged, not the clock of the side that
just moved. -/
theorem C3_clock_charged_to_wrong_side :
    (handle_click_square rulesOpen st0 28 5000).board = [(12, 28)] ∧
    (handle_click_square rulesOpen st0 28 5000).move_history = [(12, 28)] ∧
    rulesOpen.turn (handle_click_square rulesOpen st0 28 5000).board = false ∧
    (handle_click_square rulesOpen st0 28 5000).remaining_white = 60000 ∧
    (handle_click_square rulesOpen st0 28 5000).remaining_black = 55000 ∧
    (handle_click_square rulesOpen st0 28 5000).start_time = 5000 := by
  decide

/-- C4 counterexample: when the engine returns no move, the session does not
become Over and no error result is set — `get_ai_move` leaves the board,
history, `game_over` and `result` untouched. -/
theorem C4_counterexample :
    engNoPv.play st0.board st0.ai_skill = none ∧
    (get_ai_move engNoPv rulesOpen st0).game_over = false ∧
    (get_ai_move engNoPv rulesOpen st0).result = none ∧
    (get_ai_move engNoPv rulesOpen st0).board = st0.board ∧
    (get_ai_move engNoPv rulesOpen st0).move_history = st0.move_history := by
  decide

/-- C4 (amended): when the engine returns no move, `get_ai_move` changes
nothing except marking the timer running — no move is applied, no error
result is set, the session stays in progress, and the main loop will simply
issue the same engine request again on its next iteration. -/
theorem C4_engine_no_move_is_silent (eng : Engine B M) (r : Rules B M P)
    (st : GameState B M) (h : eng.play st.board st.ai_skill = none) :
    get_ai_move eng r st = { st with is_timer_running := true } := by
  have hm : get_ai_move eng r st =
      match eng.play st.board st.ai_skill with
      | some m =>
          { st with
              is_timer_running := true
              board := r.push st.board m
              move_history := st.move_history ++ [m] }
      | none => { st with is_timer_running := true } := rfl
  rw [hm, h]

/-- C4 witness: concrete session and engine at which the no-move request
leaves the session unchanged apart from the running-timer flag. -/
theorem C4_witness :
    engNoPv.play st0.board st0.ai_skill = none ∧
    get_ai_move engNoPv rulesOpen st0 = { st0 with is_timer_running := true } :=
  ⟨rfl, C4_engine_no_move_is_silent engNoPv rulesOpen st0 rfl⟩

/-- C6 counterexample: with square a1 (index 0) selected and an illegal
candidate (0, 9), the click handler leaves the Position and move-history
unchanged but does *not* clear the selection — `if self.selected_square:`
treats the square index 0 as "no selection", so the click is processed as a
fresh selection attempt instead and `selected_square` stays `some 0`. -/
theorem C6_counterexample :
    stA1.selected_square = some 0 ∧
    (rulesOpen.legalMoves stA1.board).contains (rulesOpen.mkMove 0 9) = false ∧
    (handle_click_square rulesOpen stA1 9 0).board = stA1.board ∧
    (handle_click_square rulesOpen stA1 9 0).move_history = stA1.move_history ∧
    (handle_click_square rulesOpen stA1 9 0).selected_square = some 0 := by
  decide

/-- C6 (amended): for every state whose selected square is nonzero (square
a1, index 0, is treated as no selection by the handler's truthiness test),
an attempt at a candidate move missing from the legal-move set leaves the
Position and the move-history unchanged and clears the selection back to
AwaitingSelection (no selected square, no destinations); it is a total
no-op, not an error. -/
theorem C6_illegal_attempt_noop (r : Rules B M P) [DecidableEq M]
    (st : GameState B M) (sq : Nat) (now : Int) (sel : Nat)
    (hsel : st.selected_square = some sel) (hnz : sel ≠ 0)
    (hleg : (r.legalMoves st.board).contains (r.mkMove sel sq) = false) :
    (handle_click_square r st sq now).board = st.board ∧
    (handle_click_square r st sq now).move_history = st.move_history ∧
    (handle_click_square r st sq now).selected_square = none ∧
    (handle_click_square r st sq now).valid_moves = [] := by
  unfold handle_click_square
  rw [hsel]
  simp only [hnz, if_true, ne_eq, not_false_iff, if_pos, hleg]
  simp [hleg]

/-- C6 witness: concrete state with e2 selected and the illegal candidate
(12, 9); the attempt leaves board and history alone and clears the
selection. -/
theorem C6_witness :
    st0.selected_square = some 12 ∧ (12 : Nat) ≠ 0 ∧
    (rulesOpen.legalMoves st0.board).contains (rulesOpen.mkMove 12 9) = false ∧
    ((handle_click_square rulesOpen st0 9 0).board = st0.board ∧
     (handle_click_square rulesOpen st0 9 0).move_history = st0.move_history ∧
     (handle_click_square rulesOpen st0 9 0).selected_square = none ∧
     (handle_click_square rulesOpen st0 9 0).valid_moves = []) :=
  ⟨rfl, by decide, by decide,
    C6_illegal_attempt_noop rulesOpen st0 9 0 12 rfl (by decide) (by decide)⟩

/-- C7 counterexample: after resign() followed by resume()
(the "continue_game" action), the session's result is not cleared back to
None — it remains "Resignation". -/
theorem C7_counterexample :
    st0.game_over = false ∧
    (continue_game (resign_click st0)).result = some "Resignation" ∧
    (continue_game (resign_click st0)).result ≠ none := by
  decide

/-- C7 (amended): for every in-progress session, resign() followed by
resume() restores `game_over = False` (InProgress) with the board, the
move-history, both clocks and the last tick timestamp identical to their
pre-resign values, but the result field keeps the value "Resignation"
instead of being cleared to None; the Continue (resume) action is offered
exactly when the result is "Resignation". -/
theorem C7_resign_resume (st : GameState B M) (res : Option String)
    (h : st.game_over = false) :
    (continue_game (resign_click st)).game_over = false ∧
    (continue_game (resign_click st)).board = st.board ∧
    (continue_game (resign_click st)).move_history = st.move_history ∧
    (continue_game (resign_click st)).remaining_white = st.remaining_white ∧
    (continue_game (resign_click st)).remaining_black = st.remaining_black ∧
    (continue_game (resign_click st)).start_time = st.start_time ∧
    (continue_game (resign_click st)).result = some "Resignation" ∧
    evaluation_offers_continue (resign_click st) = true ∧
    evaluation_offers_continue { st with result := res } = (res == some "Resignation") := by
  refine ⟨rfl, rfl, rfl, rfl, rfl, rfl, rfl, ?_, rfl⟩
  simp [evaluation_offers_continue, resign_click]

/-- C7 witness: the concrete session `st0` resigned and resumed; among other
facts, taking `res = none` shows the Continue action is not offered when the
result is None. -/
theorem C7_witness :
    st0.game_over = false ∧
    ((continue_game (resign_click st0)).game_over = false ∧
     (continue_game (resign_click st0)).board = st0.board ∧
     (continue_game (resign_click st0)).move_history = st0.move_history ∧
     (continue_game (resign_click st0)).remaining_white = st0.remaining_white ∧
     (continue_game (resign_click st0)).remaining_black = st0.remaining_black ∧
     (continue_game (resign_click st0)).start_time = st0.start_time ∧
     (continue_game (resign_click st0)).result = some "Resignation" ∧
     evaluation_offers_continue (resign_click st0) = true ∧
     evaluation_offers_continue { st0 with result := none } =
       ((none : Option String) == some "Resignation")) :=
  ⟨rfl, C7_resign_resume st0 none rfl⟩

/-- C8 counterexample: in Human-vs-AI with the human playing White, clicking
a White piece while it is *Black's* turn selects the square — the ownership
test compares the piece colour with `human_color`, not with the side to
move, so a square the claim says must be a no-op becomes selected. -/
theorem C8_counterexample :
    stHvAI.selected_square = none ∧
    stHvAI.game_mode = "Human vs AI" ∧
    rulesHvAI.turn stHvAI.board = false ∧
    rulesHvAI.pieceAt stHvAI.board 4 = some true ∧
    rulesHvAI.pieceColor true = true ∧
    (handle_click_square rulesHvAI stHvAI 4 0).selected_square = some 4 := by
  decide

/-- C8 (amended): for every square clicked with no current selection, the
handler is a no-op when the square is empty or its piece fails the
ownership test — in Human-vs-Human any piece passes regardless of colour or
turn, otherwise the piece's colour must equal `human_color` (which
coincides with the side to move whenever the human is to move) — and
otherwise the square becomes selected with the destinations being exactly
the to-squares of the legal moves whose from-square is the clicked
square. -/
theorem C8_select_ownership (r : Rules B M P) [DecidableEq M]
    (st : GameState B M) (sq : Nat) (now : Int)
    (hsel : st.selected_square = none) :
    (r.pieceAt st.board sq = none → handle_click_square r st sq now = st) ∧
    (∀ p, r.pieceAt st.board sq = some p →
      ((st.game_mode = "Human vs Human" ∨ st.human_color = some (r.pieceColor p)) →
        handle_click_square r st sq now =
          { st with
              selected_square := some sq
              valid_moves :=
                ((r.legalMoves st.board).filter (fun m => r.moveFrom m == sq)).map r.moveTo }) ∧
      (¬ (st.game_mode = "Human vs Human" ∨ st.human_color = some (r.pieceColor p)) →
        handle_click_square r st sq now = st)) := by
  have hunf : handle_click_square r st sq now = select_branch r st sq := by
    unfold handle_click_square
    rw [hsel]
  refine ⟨?_, ?_⟩
  · intro hp
    rw [hunf]
    unfold select_branch
    rw [hp]
  · intro p hp
    constructor
    · intro hown
      rw [hunf]
      unfold select_branch
      rw [hp]
      exact if_pos hown
    · intro hown
      rw [hunf]
      unfold select_branch
      rw [hp]
      exact if_neg hown

/-- C8 witness: clicking the White piece on square 4 with no selection in a
Human-vs-AI session selects it, with the (empty) destination list computed
from the legal moves leaving square 4. -/
theorem C8_witness :
    stHvAI.selected_square = none ∧
    rulesHvAI.pieceAt stHvAI.board 4 = some true ∧
    (stHvAI.game_mode = "Human vs Human" ∨
      stHvAI.human_color = some (rulesHvAI.pieceColor true)) ∧
    handle_click_square rulesHvAI stHvAI 4 0 =
      { stHvAI with
          selected_square := some 4
          valid_moves :=
            ((rulesHvAI.legalMoves stHvAI.board).filter
              (fun m => rulesHvAI.moveFrom m == 4)).map rulesHvAI.moveTo } :=
  ⟨rfl, rfl, Or.inr rfl,
    ((C8_select_ownership rulesHvAI stHvAI 4 0 rfl).2 true rfl).1 (Or.inr rfl)⟩

/-- C9 counterexample: when the pre-move analysis returns no principal line
*and* the position is in check, the move is classified "red", not the
fail-open "blue" — the in-check shortcut fires before the principal line is
consulted. -/
theorem C9_counterexample :
    (engNoPv.analyse ([] : Bd) EVAL_DEPTH MATE_SCORE).pv = [] ∧
    rulesInCheck.isCheck ([] : Bd) = true ∧
    (rulesInCheck.legalMoves ([] : Bd)).contains (12, 28) = true ∧
    get_move_evaluation engNoPv rulesInCheck ([] : Bd) (12, 28) = "red" ∧
    get_move_evaluation engNoPv rulesInCheck ([] : Bd) (12, 28) ≠ "blue" := by
  decide

/-- Helper: the evaluation loop produces exactly one entry per move of the
history it still has to process, whatever the accumulator and replay
board. -/
theorem evaluate_moves_go_length (eng : Engine B M) (r : Rules B M P) [DecidableEq M] :
    ∀ (l : List M) (acc : List (String × String)) (b : B),
      (evaluate_moves_go eng r l acc b).length = acc.length + l.length := by
  intro l
  induction l with
  | nil => intro acc b; simp [evaluate_moves_go]
  | cons m rest ih =>
    intro acc b
    rw [evaluate_moves_go, ih]
    simp
    omega

/-- C9 (amended): for a legal played move whose pre-move position is not in
check, a pre-move analysis that returns no principal line classifies the
move Acceptable ("blue"); and the evaluation pass is total — it always
produces exactly one classification per move of the history, so a failed
analysis never aborts the evaluation of the remaining moves. -/
theorem C9_no_pv_defaults_blue (eng : Engine B M) (r : Rules B M P) [DecidableEq M]
    (board : B) (move : M) (history : List M)
    (hchk : r.isCheck board = false)
    (hleg : (r.legalMoves board).contains move = true)
    (hpv : (eng.analyse board EVAL_DEPTH MATE_SCORE).pv = []) :
    get_move_evaluation eng r board move = "blue" ∧
    (evaluate_moves eng r history).length = history.length := by
  have hmem : move ∈ r.legalMoves board := by simpa using hleg
  constructor
  · simp [get_move_evaluation, hchk, hleg, hmem, hpv]
  · rw [evaluate_moves, evaluate_moves_go_length]
    simp

/-- C9 witness: a concrete not-in-check position with an empty principal
line is classified "blue", and evaluating a one-move history yields one
entry. -/
theorem C9_witness :
    rulesOpen.isCheck ([] : Bd) = false ∧
    (rulesOpen.legalMoves ([] : Bd)).contains (12, 28) = true ∧
    (engNoPv.analyse ([] : Bd) EVAL_DEPTH MATE_SCORE).pv = [] ∧
    (get_move_evaluation engNoPv rulesOpen ([] : Bd) (12, 28) = "blue" ∧
     (evaluate_moves engNoPv rulesOpen [((12, 28) : Mv)]).length = [((12, 28) : Mv)].length) :=
  ⟨rfl, by decide, rfl,
    C9_no_pv_defaults_blue engNoPv rulesOpen [] (12, 28) [(12, 28)] rfl (by decide) rfl⟩

/-- Helper: one navigation action keeps the replay index within the bounds
of the move history. -/
theorem trigger_action_index_le (len : Nat) (s : EvalNav) (a : NavAction)
    (h : s.current_move_index ≤ len) :
    (trigger_action len s a).current_move_index ≤ len := by
  cases a with
  | go_to_start => simp [trigger_action]
  | play_pause => simp only [trigger_action]; split <;> simpa using h
  | prev =>
    have he : (trigger_action len s NavAction.prev).current_move_index
        = s.current_move_index - 1 := rfl
    omega
  | next =>
    have he : (trigger_action len s NavAction.next).current_move_index
        = min len (s.current_move_index + 1) := rfl
    omega
  | speed => simpa [trigger_action] using h
  | tick elapsed =>
    simp only [trigger_action]
    split
    · rename_i hc
      simp only [Bool.and_eq_true, decide_eq_true_eq] at hc
      simp
      omega
    · simpa using h

/-- Helper: any sequence of navigation actions keeps the replay index within
bounds. -/
theorem foldl_trigger_index_le (len : Nat) (acts : List NavAction) :
    ∀ s : EvalNav, s.current_move_index ≤ len →
      (acts.foldl (trigger_action len) s).current_move_index ≤ len := by
  induction acts with
  | nil => intro s h; simpa using h
  | cons a rest ih => intro s h; exact ih _ (trigger_action_index_le len s a h)

/-- Helper: when the index is within bounds, the board the review screen
draws (a fresh board with `history[i]` pushed for `i < idx`) is the replay
of exactly the first `idx` moves of the history. -/
theorem draw_temp_board_eq_replay [Inhabited M] (r : Rules B M P)
    (history : List M) :
    ∀ idx : Nat, idx ≤ history.length →
      draw_temp_board r history idx = replay_board r history idx := by
  intro idx
  induction idx with
  | zero => intro _; rfl
  | succ n ih =>
    intro h
    have hn : n < history.length := by omega
    have hgd : history.getD n default = history[n] := by
      simp [List.getD_eq_getElem?_getD, List.getElem?_eq_getElem hn]
    have hstep : draw_temp_board r history (n + 1)
        = r.push (draw_temp_board r history n) (history.getD n default) := by
      unfold draw_temp_board
      rw [List.range_succ, List.foldl_append]
      rfl
    have htake : List.take (n + 1) history = List.take n history ++ [history[n]] := by
      rw [List.take_succ, List.getElem?_eq_getElem hn]
      rfl
    have hstep2 : replay_board r history (n + 1)
        = r.push (replay_board r history n) history[n] := by
      unfold replay_board
      rw [htake, List.foldl_append]
      rfl
    rw [hstep, hgd, hstep2, ih (by omega)]

/-- C10: starting from the initial review state, every sequence of
navigation actions (go-to-start, play/pause, previous, next, speed cycling,
autoplay ticks) keeps the current move index within 0 and the length of the
move history, and the board drawn for that index is a fresh initial
position with exactly the first `index` moves of the history applied in
order. -/
theorem C10_review_navigation_invariant [Inhabited M] (r : Rules B M P)
    (history : List M) (acts : List NavAction) :
    (acts.foldl (trigger_action history.length) evalNavInit).current_move_index
        ≤ history.length ∧
    draw_temp_board r history
        (acts.foldl (trigger_action history.length) evalNavInit).current_move_index
      = replay_board r history
        (acts.foldl (trigger_action history.length) evalNavInit).current_move_index := by
  have hle :=
    foldl_trigger_index_le history.length acts evalNavInit (by simp [evalNavInit])
  exact ⟨hle, draw_temp_board_eq_replay r history _ hle⟩

end PyChess
